import Mathlib

/-!
# Verification of the cogo-bikeshare tick simulation

Shallow embedding of `src/cogo/simulation.py` (classes `Station`, `Bike`,
`Orchestrator`) together with proofs of the behavioural claims made by the
repository's specification.

Modelling conventions, stated once:

* Python machine integers are `Nat`/`Int`; floats coming from the prepared
  data tables (probabilities, mean trip durations in seconds, mean
  inter-departure intervals in minutes) are modelled as exact rationals `ℚ`.
* `np.random.geometric` and `np.random.choice` are modelled by an explicit
  oracle `Rng` holding a stream of prepared draws.  `Rng.geometric`
  additionally records the success probability `p` it was invoked with, so
  theorems can talk about the parameter the code requests from the sampler.
* Python `dict`s (insertion ordered) are association lists; lookup is
  first-match, which coincides with `dict` lookup because every dict built by
  the source has pairwise-distinct keys.
* Fallible Python code (raised exceptions) is `Except`.
-/

namespace Cogo

/-
`Rat.add`, `Rat.mul` and `Rat.inv` are `@[irreducible]` in this toolchain, so
closed simulation runs built from them cannot be evaluated by `decide`.  The
embedding therefore uses its own addition and division on `ℚ`, written with
the reducible `Rat.divInt`, and the bridge lemmas `ratAdd_eq_add` /
`ratDiv_eq_div` prove once and for all that they are exactly `+` and `/`.
-/

/-- Rational addition via `Rat.divInt`; provably equal to `+` (see
`ratAdd_eq_add`). -/
def ratAdd (a b : ℚ) : ℚ :=
  Rat.divInt (a.num * b.den + b.num * a.den) (a.den * b.den)

/-- Rational division via `Rat.divInt`; provably equal to `/` (see
`ratDiv_eq_div`). -/
def ratDiv (a b : ℚ) : ℚ := Rat.divInt (a.num * b.den) (a.den * b.num)

/-- Sum of a list of rationals via `ratAdd`; provably `List.sum` (see
`ratSum_eq_sum`). -/
def ratSum (xs : List ℚ) : ℚ := xs.foldr ratAdd 0

/-- Python `int(x)` applied to `Timedelta.total_seconds()`: truncation of a
rational toward zero, i.e. T-division of numerator by denominator. -/
def ratToInt (q : ℚ) : Int := q.num.tdiv q.den

/-- Embedding of `Bike.__init__` (`simulation.py` lines 113-120).  `is_docked`,
`last_departure_from`, `next_arrival_to`, `remaining_transit_time` are the
mutable attributes the simulation writes; `remaining_transit_time` is kept in
seconds, exactly as the source stores `int(transit_time.total_seconds())`,
and may go negative because the source keeps subtracting 60 from a bike that
waits at a full destination. -/
structure Bike where
  bike_id : Nat
  is_docked : Bool
  last_departure_from : Nat
  next_arrival_to : Nat
  remaining_transit_time : Int
deriving DecidableEq, Repr

/-- A freshly constructed `Bike(idx)`. -/
def Bike.init (id : Nat) : Bike :=
  { bike_id := id, is_docked := true, last_departure_from := 0,
    next_arrival_to := 0, remaining_transit_time := 0 }

/-- Embedding of the `Station.__init__` state (`simulation.py` lines 41-51).  The three
`interlinks` lists are kept parallel exactly as the source keeps
`interlinks['station']`, `interlinks['probability']`,
`interlinks['travel_time']`; `inter_departure_times` is the insertion-ordered
hour-label table. Travel times are seconds (the source stores Timedeltas). -/
structure Station where
  bikeshare_id : Nat
  docks : Nat
  docked_bikes : List Bike
  time_since_last_departure : Nat
  time_until_next_departure : Nat
  interlinks_station : List Nat
  interlinks_probability : List ℚ
  interlinks_travel_time : List ℚ
  inter_departure_times : List (String × ℚ)
deriving DecidableEq, Repr

/-- A freshly constructed `Station(bikeshare_id, docks)`. -/
def Station.init (id docks : Nat) : Station :=
  { bikeshare_id := id, docks := docks, docked_bikes := [],
    time_since_last_departure := 0, time_until_next_departure := 0,
    interlinks_station := [], interlinks_probability := [],
    interlinks_travel_time := [], inter_departure_times := [] }

/-- Embedding of `Station._check_available_docks` (lines 53-56): true iff
`self.docks > len(self.docked_bikes)`. -/
def Station.check_available_docks (s : Station) : Bool :=
  decide (s.docked_bikes.length < s.docks)

/-- Embedding of `Station.lease_dock(bike)` (lines 58-64).  The Python method mutates the
bike (`is_docked = True`) and appends it to `docked_bikes`, returning `True`;
on a full station it returns `False` touching nothing.  We return the flag,
the updated station and the updated bike. -/
def Station.lease_dock (s : Station) (b : Bike) : Bool × Station × Bike :=
  if s.check_available_docks then
    let b' := { b with is_docked := true }
    (true, { s with docked_bikes := s.docked_bikes ++ [b'] }, b')
  else
    (false, s, b)

/-- Embedding of `Station.release_dock(destination, transit_time)`
(lines 66-80): pops the
head of the FIFO `docked_bikes` queue, writing the departure bookkeeping onto
the bike (`remaining_transit_time = int(transit_time.total_seconds())`, with
`transit_time` measured in seconds here); on an empty queue returns `None`
with no mutation. -/
def Station.release_dock (s : Station) (destination : Nat) (transit_time : ℚ) :
    Option Bike × Station :=
  match s.docked_bikes with
  | [] => (none, s)
  | b :: rest =>
    (some { b with is_docked := false, last_departure_from := s.bikeshare_id,
                   next_arrival_to := destination,
                   remaining_transit_time := ratToInt transit_time },
     { s with docked_bikes := rest })

/-- First-match lookup in an insertion-ordered table: Python
`dict.get(hour)` (the tables built by the source have distinct keys). -/
def lookupHour (tbl : List (String × ℚ)) (hour : String) : Option ℚ :=
  (tbl.find? (fun p => p.1 == hour)).map Prod.snd

/-- Mean (`np.mean`) of a list of rationals. -/
def listMean (xs : List ℚ) : ℚ := ratDiv (ratSum xs) (xs.length : ℚ)

/-- The interval `should_bike_depart` feeds to the geometric sampler
(lines 88-92): `self.inter_departure_times.get(hour)`, falling back to the
mean of all stored values when the lookup is falsy (absent key, or a stored
zero — Python's `if not _inter_departure_interval`). -/
def Station.mean_interval_for (s : Station) (hour : String) : ℚ :=
  match lookupHour s.inter_departure_times hour with
  | none => listMean (s.inter_departure_times.map Prod.snd)
  | some v => if v = 0 then listMean (s.inter_departure_times.map Prod.snd) else v

/-- Oracle for `np.random`.  `geometric_draws` feeds `np.random.geometric`
(each actual numpy draw is ≥ 1; an exhausted stream defaults to 1),
`choice_draws` feeds `np.random.choice` as an index, and `geometric_params`
logs the success probability each geometric call was made with. -/
structure Rng where
  geometric_draws : List Nat
  choice_draws : List Nat
  geometric_params : List ℚ
deriving DecidableEq, Repr

/-- One call of `np.random.geometric(p=p)`. -/
def Rng.geometric (rng : Rng) (p : ℚ) : Nat × Rng :=
  match rng.geometric_draws with
  | [] => (1, { rng with geometric_params := rng.geometric_params ++ [p] })
  | d :: rest =>
    (d, { rng with geometric_draws := rest,
                   geometric_params := rng.geometric_params ++ [p] })

/-- One call of `np.random.choice` over `n` weighted alternatives, modelled
as the oracle choosing an index `< n`. -/
def Rng.choice (rng : Rng) (n : Nat) : Nat × Rng :=
  match rng.choice_draws with
  | [] => (0, rng)
  | d :: rest => (d % n, { rng with choice_draws := rest })

/-- Embedding of `Station.should_bike_depart(hour)` (lines 82-100).  Countdown zero: draw a
fresh countdown from the geometric sampler at `p = 1 / interval`, reset the
time-since counter and report a departure; otherwise decrement the countdown,
bump the time-since counter and report no departure. -/
def Station.should_bike_depart (s : Station) (hour : String) (rng : Rng) :
    Bool × Station × Rng :=
  if s.time_until_next_departure = 0 then
    let r := rng.geometric (ratDiv 1 (s.mean_interval_for hour))
    (true,
     { s with time_until_next_departure := r.1, time_since_last_departure := 0 },
     r.2)
  else
    (false,
     { s with time_until_next_departure := s.time_until_next_departure - 1,
              time_since_last_departure := s.time_since_last_departure + 1 },
     rng)

/-- Embedding of `Station.get_destination_station` (lines 102-110): a weighted draw of a
destination id, then `interlinks['station'].index(station)` (first position)
selects the travel time from the parallel list. -/
def Station.get_destination_station (s : Station) (rng : Rng) :
    (Nat × ℚ) × Rng :=
  let r := rng.choice s.interlinks_station.length
  let dest := s.interlinks_station.getD r.1 0
  let idx := s.interlinks_station.findIdx (fun x => x == dest)
  ((dest, s.interlinks_travel_time.getD idx 0), r.2)

/-- One row of the `cogo_stations` topology table (`BIKESHARE_ID`, `DOCKS`). -/
structure StationRow where
  bikeshare_id : Nat
  docks : Nat
deriving DecidableEq, Repr

/-- One row of the `station_crosslinks` transition table. `average_trip_duration`
is a Timedelta, modelled in seconds. -/
structure CrosslinkRow where
  start_station_id : Nat
  stop_station_id : Nat
  arrival_probability : ℚ
  average_trip_duration : ℚ
deriving DecidableEq, Repr

/-- One row of the `hourly_trips` table (only the columns the simulation
reads). -/
structure HourlyRow where
  station_id : Nat
  hour : String
  inter_departure_time : ℚ
deriving DecidableEq, Repr

/-- Python `dict` assignment `stations[_id] = station` on an insertion-ordered
dict: replace in place if the key exists, else append. -/
def dictInsert (l : List (Nat × Station)) (k : Nat) (v : Station) :
    List (Nat × Station) :=
  if l.any (fun p => p.1 == k) then
    l.map (fun p => if p.1 == k then (k, v) else p)
  else
    l ++ [(k, v)]

/-- Embedding of `Orchestrator._instantiate_stations` (lines 146-187): for each topology
row, collect its outgoing crosslink rows into the three parallel interlink
lists; a station with no outgoing rows is skipped (`continue`) and therefore
never enters the stations dict; otherwise probabilities are normalized by
their sum and the hourly table is attached. -/
def instantiate_stations (cogo_stations : List StationRow)
    (station_crosslinks : List CrosslinkRow) (hourly_trips : List HourlyRow) :
    List (Nat × Station) :=
  cogo_stations.foldl (fun stations row =>
    let _id := row.bikeshare_id
    let outgoing := station_crosslinks.filter (fun c => c.start_station_id == _id)
    if (outgoing.map (fun c => c.stop_station_id)).isEmpty then
      stations
    else
      let probs := outgoing.map (fun c => c.arrival_probability)
      let station : Station :=
        { Station.init _id row.docks with
          interlinks_station := outgoing.map (fun c => c.stop_station_id),
          interlinks_probability := probs.map (fun p => ratDiv p (ratSum probs)),
          interlinks_travel_time := outgoing.map (fun c => c.average_trip_duration),
          inter_departure_times :=
            (hourly_trips.filter (fun h => h.station_id == _id)).map
              (fun h => (h.hour, h.inter_departure_time)) }
      dictInsert stations _id station) []

/-- Construction-time failures of `Orchestrator.__init__`:
`overprovisioned` is the `Exception` raised by `_distribute_bikes`;
`divisionByZero` is Python's `ZeroDivisionError` from the occupancy ratio
`len(docked)/docks` when `docks == 0`; `indexError` is Python's `IndexError`
from `_stationlist[_counter]` on an empty station list. -/
inductive DistErr where
  | overprovisioned
  | divisionByZero
  | indexError
deriving DecidableEq, Repr

/-- Ring-successor of the round-robin counter (lines 200-203 / 211-214):
`0` when at the last index, else `+1`. -/
def advanceCounter (n counter : Nat) : Nat :=
  if counter = n - 1 then 0 else counter + 1

/-- The `while` loop of `_distribute_bikes` (lines 196-208), searching for a
station whose occupancy ratio `len(docked_bikes)/docks` is ≤ 0.9 starting at
`counter`, wrapping round the list and raising once the counter returns to
`lastval` (the position it started from).

`_stationlist[_counter]` followed by the dict lookup is positional access
into the insertion-ordered dict (the keys built by `_instantiate_stations`
are pairwise distinct), so the scan works on positions directly.  `fuel` only
makes the recursion structural: the source loop raises when the counter wraps
to `lastval`, which happens after at most `stations.length` advances, so with
the initial `fuel = stations.length` the fuel-exhausted fallback (which
raises the same error) is never the branch taken. -/
def findSlot (stations : List (Nat × Station)) (lastval : Nat) :
    Nat → Nat → Except DistErr Nat
  | counter, fuel =>
    match stations.get? counter with
    | none => .error .indexError
    | some p =>
      if p.2.docks = 0 then .error .divisionByZero
      else if ratDiv 9 10 < ratDiv (p.2.docked_bikes.length : ℚ) (p.2.docks : ℚ) then
        let counter' := advanceCounter stations.length counter
        if counter' = lastval then .error .overprovisioned
        else
          match fuel with
          | 0 => .error .overprovisioned
          | fuel' + 1 => findSlot stations lastval counter' fuel'
      else .ok counter

/-- The `for idx in range(_bike_count)` loop of `_distribute_bikes`
(lines 192-214): for each bike index, run the saturation scan from the
current counter, lease the fresh `Bike(idx)` at the station found (the lease
result is discarded, exactly as in the source) and advance the counter. -/
def distLoop (stations : List (Nat × Station)) (counter : Nat) :
    Nat → Nat → Except DistErr (List (Nat × Station))
  | 0, _ => .ok stations
  | remaining + 1, idx =>
    match findSlot stations counter counter stations.length with
    | .error e => .error e
    | .ok c =>
      match stations.get? c with
      | none => .error .indexError
      | some p =>
        let r := p.2.lease_dock (Bike.init idx)
        distLoop (stations.set c (p.1, r.2.1)) (advanceCounter stations.length c)
          remaining (idx + 1)

/-- Embedding of `Orchestrator._distribute_bikes(bike_count)` (lines 189-215): the
round-robin distribution starts with `_counter = 0` and bike index 0. -/
def distribute_bikes (stations : List (Nat × Station)) (bike_count : Nat) :
    Except DistErr (List (Nat × Station)) :=
  distLoop stations 0 bike_count 0

/-- One row of `simulation_statistics` (lines 246-255). -/
structure StatRow where
  tick_number : Nat
  timestamp : String
  station_id : Nat
  available_docks : Int
  used_docks : Nat
deriving DecidableEq, Repr

/-- The observable event stream of the tick loop, abstracting the source's
logger calls: `departureLeased` is the "Leased bike …" record (lines 233-239),
`lostDemand` the "No bike was available …" record (lines 240-245),
`arrivalLeased` the arrival record (lines 267-276) and `waitingForDock` the
"No docks available …" record (lines 277-281). -/
inductive Event where
  | departureLeased (tick : Nat) (timestamp : String)
      (bike_id from_station to_station : Nat)
  | lostDemand (tick : Nat) (timestamp : String) (station_id : Nat)
  | arrivalLeased (tick : Nat) (bike_id station_id : Nat)
  | waitingForDock (tick : Nat) (bike_id station_id : Nat)
deriving DecidableEq, Repr

/-- The mutable state of an `Orchestrator` plus the random oracle and the
event log. -/
structure SimState where
  stations : List (Nat × Station)
  bikes_in_transit : List Bike
  simulation_statistics : List StatRow
  events : List Event
  rng : Rng
deriving DecidableEq, Repr

/-- Embedding of `Orchestrator.__init__` (lines 125-144): filter the crosslinks to
destinations present in the topology, instantiate the stations and run the
initial distribution; in-transit list and statistics start empty. -/
def Orchestrator.build (cogo_stations : List StationRow)
    (station_crosslinks : List CrosslinkRow) (hourly_trips : List HourlyRow)
    (bike_count : Nat) (rng : Rng) : Except DistErr SimState :=
  let ids := cogo_stations.map (fun r => r.bikeshare_id)
  let filtered := station_crosslinks.filter (fun c => ids.contains c.stop_station_id)
  let stations := instantiate_stations cogo_stations filtered hourly_trips
  match distribute_bikes stations bike_count with
  | .error e => .error e
  | .ok stations' =>
    .ok { stations := stations', bikes_in_transit := [],
          simulation_statistics := [], events := [], rng := rng }

/-- Zero-padding to two digits, as in lines 221-224 (`'0' + str(h)` when
`h < 10`) and the minute label of line 226-227 (`tick % 60 > 9` is the same
test negated). -/
def pad2 (n : Nat) : String :=
  if n < 10 then ("0") ++ toString n else toString n

/-- Dict lookup `self.stations[k]` as an `Option` (first match; keys are
pairwise distinct by construction). -/
def stationsGet (stations : List (Nat × Station)) (k : Nat) : Option Station :=
  (stations.find? (fun p => p.1 == k)).map Prod.snd

/-- Write back the (in Python, in-place) mutation of the station stored under
key `k`: replace the first entry with that key. -/
def stationsSet : List (Nat × Station) → Nat → Station → List (Nat × Station)
  | [], _, _ => []
  | p :: rest, k, v =>
    if p.1 = k then (k, v) :: rest else p :: stationsSet rest k v

/-- The `_stats` row appended for a station, lines 246-255; read after the
departure decision, so a departure in this tick is already reflected. -/
def mkStatRow (tick : Nat) (timestamp : String) (st : Station) : StatRow :=
  { tick_number := tick, timestamp := timestamp, station_id := st.bikeshare_id,
    available_docks := (st.docks : Int) - (st.docked_bikes.length : Int),
    used_docks := st.docked_bikes.length }

/-- The body of `for station in self.stations.values()` (lines 229-260) for a
single station: the stochastic departure decision, on success the destination
draw and the release (appending a `departureLeased` or `lostDemand` event and
possibly a released bike).  Returns the updated station, oracle, the bike to
append to `bikes_in_transit` (if any) and the emitted events. -/
def stationTick (tick : Nat) (hour timestamp : String) (st : Station)
    (rng : Rng) : Station × Rng × Option Bike × List Event :=
  let d := st.should_bike_depart hour rng
  if d.1 then
    let dd := d.2.1.get_destination_station d.2.2
    let rel := d.2.1.release_dock dd.1.1 dd.1.2
    match rel.1 with
    | some b =>
      (rel.2, dd.2, some b,
       [.departureLeased tick timestamp b.bike_id b.last_departure_from
          b.next_arrival_to])
    | none =>
      (rel.2, dd.2, none, [.lostDemand tick timestamp st.bikeshare_id])
  else
    (d.2.1, d.2.2, none, [])

/-- The departure-plus-statistics phase of one tick (lines 229-260),
processing the stations in dict order and threading the oracle, the
in-transit list, the event log and the statistics log through.  Returns the
updated station list in the same order. -/
def departurePhase (tick : Nat) (hour timestamp : String) :
    List (Nat × Station) → Rng → List Bike → List Event → List StatRow →
    List (Nat × Station) × Rng × List Bike × List Event × List StatRow
  | [], rng, transit, evs, stats => ([], rng, transit, evs, stats)
  | p :: rest, rng, transit, evs, stats =>
    let r := stationTick tick hour timestamp p.2 rng
    let transit' := match r.2.2.1 with
      | some b => transit ++ [b]
      | none => transit
    let out := departurePhase tick hour timestamp rest r.2.1 transit'
      (evs ++ r.2.2.2) (stats ++ [mkStatRow tick timestamp r.1])
    ((p.1, r.1) :: out.1, out.2)

/-- Runtime failure of `run_simulation`: Python's `KeyError` from
`self.stations[bike.next_arrival_to]` (line 273) when the destination was
never instantiated. -/
inductive SimErr where
  | keyError (station_id : Nat)
deriving DecidableEq, Repr

/-- The arrival phase `for bike in self.bikes_in_transit` (lines 262-281).

The source iterates the live list by a cursor while popping arrived bikes
from it in place (`self.bikes_in_transit.pop(self.bikes_in_transit.index(bike))`),
which makes the iteration skip the element following a pop.  We model the
cursor as the split `done ++ todo` with the cursor at the head of `todo`:
each step decrements the head's `remaining_transit_time` by 60 seconds; a
bike that reaches ≤ 0 attempts a lease at its destination (a missing
destination is the source's fatal `KeyError`); a successful lease drops the
bike *and moves the following element to `done` unprocessed* — exactly the
source's skip — while a failed lease keeps the decremented bike waiting.
`index(bike)` finds the cursor position itself because list membership is by
object identity and a bike object is in the list at most once. -/
def arrivalGo (tick : Nat) :
    List (Nat × Station) → List Bike → List Bike → List Event →
    Except SimErr (List (Nat × Station) × List Bike × List Event)
  | sts, done, [], evs => .ok (sts, done, evs)
  | sts, done, bike :: rest, evs =>
    let bike1 := { bike with
      remaining_transit_time := bike.remaining_transit_time - 60 }
    if bike1.remaining_transit_time ≤ 0 then
      match stationsGet sts bike1.next_arrival_to with
      | none => .error (.keyError bike1.next_arrival_to)
      | some st =>
        let r := st.lease_dock bike1
        if r.1 then
          let sts' := stationsSet sts bike1.next_arrival_to r.2.1
          let evs' := evs ++ [.arrivalLeased tick bike1.bike_id bike1.next_arrival_to]
          match rest with
          | [] => .ok (sts', done, evs')
          | skipped :: rest' => arrivalGo tick sts' (done ++ [skipped]) rest' evs'
        else
          arrivalGo tick sts (done ++ [bike1]) rest
            (evs ++ [.waitingForDock tick bike1.bike_id bike1.next_arrival_to])
    else
      arrivalGo tick sts (done ++ [bike1]) rest evs

/-- One iteration of the `while tick < num_ticks` loop (lines 219-283):
hour and timestamp labels, the departure/statistics phase over every station,
then the arrival phase over the in-transit list. -/
def runTick (start_hour tick : Nat) (s : SimState) : Except SimErr SimState :=
  let current_hour := pad2 (start_hour + tick / 60)
  let timestamp := current_hour ++ ":" ++ pad2 (tick % 60)
  let dep := departurePhase tick current_hour timestamp s.stations s.rng
    s.bikes_in_transit s.events s.simulation_statistics
  match arrivalGo tick dep.1 [] dep.2.2.1 dep.2.2.2.1 with
  | .error e => .error e
  | .ok arr =>
    .ok { stations := arr.1, bikes_in_transit := arr.2.1,
          simulation_statistics := dep.2.2.2.2, events := arr.2.2,
          rng := dep.2.1 }

/-- The tick loop, counting the current tick up while `remaining` counts the
ticks still to run. -/
def runTicks (start_hour : Nat) : Nat → Nat → SimState → Except SimErr SimState
  | _, 0, s => .ok s
  | tick, remaining + 1, s =>
    match runTick start_hour tick s with
    | .error e => .error e
    | .ok s' => runTicks start_hour (tick + 1) remaining s'

/-- Embedding of `Orchestrator.run_simulation(start_hour, num_ticks)`
(lines 217-283). -/
def run_simulation (start_hour num_ticks : Nat) (s : SimState) :
    Except SimErr SimState :=
  runTicks start_hour 0 num_ticks s

/-- Total number of docked bikes over a station list. -/
def sumDocked (stations : List (Nat × Station)) : Nat :=
  (stations.map (fun p => p.2.docked_bikes.length)).sum

/-- Docked bikes over all stations plus bikes in transit. -/
def fleetCount (s : SimState) : Nat :=
  sumDocked s.stations + s.bikes_in_transit.length

/-- Capacity bound `len(docked_bikes) ≤ docks` for every station of a list. -/
def capOk (stations : List (Nat × Station)) : Prop :=
  ∀ p ∈ stations, p.2.docked_bikes.length ≤ p.2.docks

instance (stations : List (Nat × Station)) : Decidable (capOk stations) := by
  unfold capOk
  infer_instance

/-- A station holding bikes `b1, b2, b3` in FIFO order, for the concrete part
of the FIFO claim. -/
def fifoSt : Station :=
  { Station.init 7 3 with docked_bikes := [Bike.init 1, Bike.init 2, Bike.init 3] }

/-- A concrete station whose countdown is zero, with one table entry. -/
def renewSt : Station :=
  { Station.init 1 2 with inter_departure_times := [("09", 10)] }

/-- A concrete station mid-countdown. -/
def renewSt2 : Station :=
  { renewSt with time_until_next_departure := 4, time_since_last_departure := 2 }

/-- The fallback example station: intervals 10 at hour "09" and 20 at
hour "11". -/
def fallbackSt : Station :=
  { Station.init 1 2 with inter_departure_times := [("09", 10), ("11", 20)] }

/-- 0 for `None`, 1 for a present bike (used to count a released bike). -/
def optLen : Option Bike → Nat
  | none => 0
  | some _ => 1

/-- Decidable equality for `Except`, needed to evaluate concrete runs. -/
instance {ε α : Type} [DecidableEq ε] [DecidableEq α] :
    DecidableEq (Except ε α) := fun a b =>
  match a, b with
  | .error e, .error e' =>
    if h : e = e' then .isTrue (by rw [h])
    else .isFalse (by intro hh; cases hh; exact h rfl)
  | .error _, .ok _ => .isFalse (by intro hh; cases hh)
  | .ok _, .error _ => .isFalse (by intro hh; cases hh)
  | .ok a, .ok a' =>
    if h : a = a' then .isTrue (by rw [h])
    else .isFalse (by intro hh; cases hh; exact h rfl)

/-- Placeholder state used only as the default of `Option.getD` on
constructions that are proven to succeed. -/
def emptySim : SimState :=
  { stations := [], bikes_in_transit := [], simulation_statistics := [],
    events := [], rng := { geometric_draws := [], choice_draws := [],
                           geometric_params := [] } }

/-- Topology of the end-to-end scenario: station A = 1 and station B = 2,
capacity 2 each. -/
def twoRows : List StationRow := [⟨1, 2⟩, ⟨2, 2⟩]

/-- Crosslinks of the end-to-end scenario: A→B and B→A, probability 1,
mean trip duration 120 seconds (= 2 ticks). -/
def twoLinks : List CrosslinkRow := [⟨1, 2, 1, 120⟩, ⟨2, 1, 1, 120⟩]

/-- Hourly table of the scenarios: both stations, hour "10", interval 100. -/
def twoHourly : List HourlyRow := [⟨1, "10", 100⟩, ⟨2, "10", 100⟩]

/-- Oracle for the concrete scenarios: both stations redraw a countdown of 50
at tick 0 (so neither fires again within 5 ticks) and both destination draws
pick index 0. -/
def oracle1 : Rng := ⟨[50, 50], [0, 0], []⟩

/-- Constructed end-to-end scenario state: bike 0 docked at station A. -/
def c3Init : SimState :=
  ((Orchestrator.build twoRows twoLinks twoHourly 1 oracle1).toOption).getD emptySim

/-- The end-to-end scenario run: 5 ticks from `start_hour = 10`. -/
def c3Final : Except SimErr SimState := run_simulation 10 5 c3Init

/-- Event log of the end-to-end run. -/
def c3Events : List Event :=
  match c3Final with
  | .ok s => s.events
  | .error _ => []

/-- Statistics log of the end-to-end run. -/
def c3Stats : List StatRow :=
  match c3Final with
  | .ok s => s.simulation_statistics
  | .error _ => []

/-- End-to-end scenario state after tick 0 only. -/
def c3After1 : SimState := ((runTicks 10 0 1 c3Init).toOption).getD emptySim

/-- Crosslinks for the arrival-asymmetry scenario: only A→B (station 2 has
no outgoing transitions), 60-second trips. -/
def c5Links : List CrosslinkRow := [⟨1, 2, 1, 60⟩]

/-- Constructed arrival-asymmetry state: station 2 is in the topology but has
no outgoing transitions. -/
def c5Init : SimState :=
  ((Orchestrator.build twoRows c5Links twoHourly 1 oracle1).toOption).getD emptySim

/-- Topology of the overprovision scenario: two stations of capacity 1. -/
def capOneRows : List StationRow := [⟨1, 1⟩, ⟨2, 1⟩]

/-- A fully saturated single-station list (capacity 1, one docked bike),
used to instantiate the general overprovision theorem. -/
def saturatedSts : List (Nat × Station) :=
  [(1, { Station.init 1 1 with docked_bikes := [Bike.init 0] })]

/-- Topology with an active capacity-0 station first and a large station
second. -/
def zeroCapRows : List StationRow := [⟨1, 0⟩, ⟨2, 10⟩]

/-- Station list with a capacity-0 station at position 0, used to
instantiate the division-error theorem. -/
def zeroCapSts : List (Nat × Station) :=
  [(1, Station.init 1 0), (2, Station.init 2 10)]

/-- Topology/links/hourly/oracle of the tiny self-loop run used to witness
the global invariants: one station, one dock, one bike, one tick. -/
def w1Rows : List StationRow := [⟨1, 1⟩]

def w1Links : List CrosslinkRow := [⟨1, 1, 1, 60⟩]

def w1Hourly : List HourlyRow := [⟨1, "00", 2⟩]

def w1Oracle : Rng := ⟨[5], [0], []⟩

/-- Constructed single-station state. -/
def w1Init : SimState :=
  ((Orchestrator.build w1Rows w1Links w1Hourly 1 w1Oracle).toOption).getD emptySim

/-- The single-station state after one tick. -/
def w1Final : SimState := ((runTicks 0 0 1 w1Init).toOption).getD emptySim

theorem ratAdd_eq_add (a b : ℚ) : ratAdd a b = a + b := by
  have ha : (a.den : ℤ) ≠ 0 := Int.natCast_ne_zero.mpr a.den_pos.ne'
  have hb : (b.den : ℤ) ≠ 0 := Int.natCast_ne_zero.mpr b.den_pos.ne'
  rw [ratAdd]
  conv_rhs => rw [← Rat.num_divInt_den a, ← Rat.num_divInt_den b]
  rw [Rat.divInt_add_divInt _ _ ha hb]

theorem ratDiv_eq_div (a b : ℚ) : ratDiv a b = a / b := by
  rw [ratDiv, div_eq_mul_inv, Rat.inv_def']
  conv_rhs => rw [← Rat.num_divInt_den a]
  rw [Rat.divInt_mul_divInt']

theorem ratSum_eq_sum (xs : List ℚ) : ratSum xs = xs.sum := by
  induction xs with
  | nil => rfl
  | cons x xs ih => simp [ratSum, List.foldr, ratAdd_eq_add, ih.symm]

/-- The geometric oracle records exactly the requested success probability. -/
theorem geometric_snd_params (rng : Rng) (p : ℚ) :
    (rng.geometric p).2.geometric_params = rng.geometric_params ++ [p] := by
  rcases rng with ⟨gd, cd, gp⟩
  cases gd <;> simp [Rng.geometric]

/-- C8: `lease_dock` succeeds iff the docked count is strictly below capacity;
on success the bike is appended to the tail of the queue marked docked; on
failure neither the station nor the bike is changed, so the attempt can be
retried later with the same effect. -/
theorem C8_lease_semantics (st : Station) (b : Bike) :
    ((st.lease_dock b).1 = true ↔ st.docked_bikes.length < st.docks) ∧
    (st.docked_bikes.length < st.docks →
      st.lease_dock b =
        (true,
         { st with docked_bikes :=
             st.docked_bikes ++ [{ b with is_docked := true }] },
         { b with is_docked := true })) ∧
    (¬ st.docked_bikes.length < st.docks → st.lease_dock b = (false, st, b)) := by
  by_cases h : st.docked_bikes.length < st.docks <;>
    simp [Station.lease_dock, Station.check_available_docks, h]

/-- C8 witness: leasing at an empty two-dock station succeeds and appends. -/
theorem C8_lease_witness :
    (Station.init 1 2).docked_bikes.length < (Station.init 1 2).docks ∧
    (Station.init 1 2).lease_dock (Bike.init 0) =
      (true,
       { Station.init 1 2 with docked_bikes :=
           (Station.init 1 2).docked_bikes ++ [{ Bike.init 0 with is_docked := true }] },
       { Bike.init 0 with is_docked := true }) :=
  ⟨by decide, (C8_lease_semantics (Station.init 1 2) (Bike.init 0)).2.1 (by decide)⟩

/-- C9: `release_dock` pops the head (oldest-docked) bike of the FIFO queue,
stamping it with origin, destination and transit time, and signals empty with
no mutation on an empty queue; three consecutive releases on a station docked
`[b1, b2, b3]` return `b1`, `b2`, `b3`. -/
theorem C9_fifo_release (st : Station) (dest : Nat) (tt : ℚ) :
    (st.docked_bikes = [] → st.release_dock dest tt = (none, st)) ∧
    (∀ b rest, st.docked_bikes = b :: rest →
      st.release_dock dest tt =
        (some { b with is_docked := false, last_departure_from := st.bikeshare_id,
                       next_arrival_to := dest,
                       remaining_transit_time := ratToInt tt },
         { st with docked_bikes := rest })) ∧
    ((fifoSt.release_dock 9 60).1.map Bike.bike_id = some 1 ∧
     ((fifoSt.release_dock 9 60).2.release_dock 9 60).1.map Bike.bike_id = some 2 ∧
     (((fifoSt.release_dock 9 60).2.release_dock 9 60).2.release_dock 9
        60).1.map Bike.bike_id = some 3) := by
  refine ⟨?_, ?_, by decide⟩
  · intro h
    simp [Station.release_dock, h]
  · intro b rest h
    simp [Station.release_dock, h]

/-- C9 witness: the head pop at the concrete FIFO station. -/
theorem C9_fifo_witness :
    fifoSt.docked_bikes = Bike.init 1 :: [Bike.init 2, Bike.init 3] ∧
    fifoSt.release_dock 9 60 =
      (some { Bike.init 1 with
                is_docked := false,
                last_departure_from := fifoSt.bikeshare_id,
                next_arrival_to := 9,
                remaining_transit_time := ratToInt 60 },
       { fifoSt with docked_bikes := [Bike.init 2, Bike.init 3] }) :=
  ⟨by decide,
   (C9_fifo_release fifoSt 9 60).2.1 (Bike.init 1) [Bike.init 2, Bike.init 3]
     (by decide)⟩

/-- C4: the renewal process of `should_bike_depart`.  With the countdown at
zero the call reports a departure, draws the next countdown from the
geometric sampler invoked with success probability
`p = 1 / mean_interval_for hour` (the oracle's parameter log witnesses the
requested `p`) and resets the time-since counter; with a nonzero countdown it
decrements the countdown, bumps the time-since counter, leaves the oracle
untouched and reports no departure. -/
theorem C4_renewal_process (st : Station) (hour : String) (rng : Rng) :
    (st.time_until_next_departure = 0 →
      st.should_bike_depart hour rng =
        (true,
         { st with
             time_until_next_departure :=
               (rng.geometric (1 / st.mean_interval_for hour)).1,
             time_since_last_departure := 0 },
         (rng.geometric (1 / st.mean_interval_for hour)).2) ∧
      ((st.should_bike_depart hour rng).2.2).geometric_params =
        rng.geometric_params ++ [1 / st.mean_interval_for hour]) ∧
    (∀ n, st.time_until_next_departure = n + 1 →
      st.should_bike_depart hour rng =
        (false,
         { st with time_until_next_departure := n,
                   time_since_last_departure := st.time_since_last_departure + 1 },
         rng)) := by
  constructor
  · intro h
    constructor
    · simp [Station.should_bike_depart, h, ratDiv_eq_div, one_div]
    · simp [Station.should_bike_depart, h, geometric_snd_params, ratDiv_eq_div,
        one_div]
  · intro n h
    simp [Station.should_bike_depart, h]

/-- C4 witness: both branches of the renewal process at concrete stations. -/
theorem C4_renewal_witness :
    (renewSt.should_bike_depart ("09") ⟨[7], [], []⟩ =
        (true,
         { renewSt with
             time_until_next_departure :=
               (Rng.geometric ⟨[7], [], []⟩ (1 / renewSt.mean_interval_for ("09"))).1,
             time_since_last_departure := 0 },
         (Rng.geometric ⟨[7], [], []⟩ (1 / renewSt.mean_interval_for ("09"))).2) ∧
      ((renewSt.should_bike_depart ("09") ⟨[7], [], []⟩).2.2).geometric_params =
        Rng.geometric_params ⟨[7], [], []⟩ ++ [1 / renewSt.mean_interval_for ("09")]) ∧
    renewSt2.should_bike_depart ("09") ⟨[7], [], []⟩ =
      (false,
       { renewSt2 with time_until_next_departure := 3,
                       time_since_last_departure :=
                         renewSt2.time_since_last_departure + 1 },
       ⟨[7], [], []⟩) :=
  ⟨(C4_renewal_process renewSt ("09") ⟨[7], [], []⟩).1 (by decide),
   (C4_renewal_process renewSt2 ("09") ⟨[7], [], []⟩).2 3 (by decide)⟩

/-- C7: when the hourly table has no entry for the queried hour label,
`should_bike_depart` uses the arithmetic mean of all intervals present for
the station: `mean_interval_for` returns that mean, and the geometric sampler
is invoked with `p = 1 /` that mean. -/
theorem C7_missing_hour_fallback (st : Station) (hour : String) (rng : Rng)
    (hmiss : lookupHour st.inter_departure_times hour = none) :
    st.mean_interval_for hour = listMean (st.inter_departure_times.map Prod.snd) ∧
    (st.time_until_next_departure = 0 →
      ((st.should_bike_depart hour rng).2.2).geometric_params =
        rng.geometric_params ++
          [1 / listMean (st.inter_departure_times.map Prod.snd)]) := by
  have hm : st.mean_interval_for hour =
      listMean (st.inter_departure_times.map Prod.snd) := by
    simp [Station.mean_interval_for, hmiss]
  refine ⟨hm, fun h => ?_⟩
  simp [Station.should_bike_depart, h, geometric_snd_params, hm, ratDiv_eq_div, one_div]

/-- C7 witness: queried at the absent hour "10", the example station uses
mean interval 15. -/
theorem C7_fallback_witness :
    lookupHour fallbackSt.inter_departure_times ("10") = none ∧
    fallbackSt.mean_interval_for ("10") = 15 :=
  ⟨by decide,
   ((C7_missing_hour_fallback fallbackSt ("10") ⟨[], [], []⟩ (by decide)).1).trans
     (by decide)⟩

/-- A docked/docks ratio that is not above 9/10 forces a strictly free dock
(the denominator being nonzero). -/
theorem ratio_bound (len docks : Nat) (h0 : docks ≠ 0)
    (h : ¬ ratDiv 9 10 < ratDiv (len : ℚ) (docks : ℚ)) : len < docks := by
  rw [ratDiv_eq_div, ratDiv_eq_div, not_lt] at h
  have hd : (0 : ℚ) < (docks : ℚ) := by exact_mod_cast Nat.pos_of_ne_zero h0
  have h1 : (len : ℚ) / (docks : ℚ) < 1 := lt_of_le_of_lt h (by norm_num)
  rw [div_lt_one hd] at h1
  exact_mod_cast h1

/-- Behaviour of `lease_dock` on a station with a free dock. -/
theorem lease_dock_of_lt (st : Station) (b : Bike)
    (h : st.docked_bikes.length < st.docks) :
    st.lease_dock b =
      (true,
       { st with docked_bikes := st.docked_bikes ++ [{ b with is_docked := true }] },
       { b with is_docked := true }) := by
  simp [Station.lease_dock, Station.check_available_docks, h]

/-- Behaviour of `lease_dock` on a full station. -/
theorem lease_dock_of_ge (st : Station) (b : Bike)
    (h : ¬ st.docked_bikes.length < st.docks) :
    st.lease_dock b = (false, st, b) := by
  simp [Station.lease_dock, Station.check_available_docks, h]

/-- Replacing the entry at a position changes `sumDocked` by the difference
of docked counts (stated additively). -/
theorem sumDocked_set (stations : List (Nat × Station)) :
    ∀ c p q, stations.get? c = some p →
      sumDocked (stations.set c q) + p.2.docked_bikes.length =
        sumDocked stations + q.2.docked_bikes.length := by
  induction stations with
  | nil => intro c p q h; simp at h
  | cons hd tl ih =>
    intro c p q h
    cases c with
    | zero =>
      rw [List.get?_cons_zero] at h
      cases h
      simp [sumDocked, List.set]
      omega
    | succ n =>
      rw [List.get?_cons_succ] at h
      have := ih n p q h
      simp [sumDocked, List.set] at this ⊢
      omega

/-- The bound `capOk` survives replacing an entry by a station within its bound. -/
theorem capOk_set (stations : List (Nat × Station)) (c : Nat) (q : Nat × Station)
    (h : capOk stations) (hq : q.2.docked_bikes.length ≤ q.2.docks) :
    capOk (stations.set c q) := by
  intro p hp
  rcases List.mem_or_eq_of_mem_set hp with h1 | h1
  · exact h p h1
  · subst h1; exact hq

/-- A successful slot search returns a position holding a station with a
nonzero dock count and an occupancy ratio not above 9/10. -/
theorem findSlot_ok_facts (stations : List (Nat × Station)) (lastval : Nat) :
    ∀ fuel counter c, findSlot stations lastval counter fuel = .ok c →
      ∃ p, stations.get? c = some p ∧ p.2.docks ≠ 0 ∧
        ¬ ratDiv 9 10 < ratDiv (p.2.docked_bikes.length : ℚ) (p.2.docks : ℚ) := by
  intro fuel
  induction fuel with
  | zero =>
    intro counter c h
    rw [findSlot] at h
    rcases hg : stations.get? counter with _ | p <;> rw [hg] at h
    · simp at h
    · by_cases hz : p.2.docks = 0
      · simp [hz] at h
      · by_cases hr : ratDiv 9 10 <
            ratDiv (p.2.docked_bikes.length : ℚ) (p.2.docks : ℚ)
        · simp [hz, hr] at h
        · simp [hz, hr] at h
          exact ⟨p, h ▸ hg, hz, hr⟩
  | succ n ih =>
    intro counter c h
    rw [findSlot] at h
    rcases hg : stations.get? counter with _ | p <;> rw [hg] at h
    · simp at h
    · by_cases hz : p.2.docks = 0
      · simp [hz] at h
      · by_cases hr : ratDiv 9 10 <
            ratDiv (p.2.docked_bikes.length : ℚ) (p.2.docks : ℚ)
        · simp [hz, hr] at h
          split at h
          · simp at h
          · exact ih _ _ h
        · simp [hz, hr] at h
          exact ⟨p, h ▸ hg, hz, hr⟩

/-- Bikes placed by the distribution loop are each leased at a station with a
free dock, so a successful loop adds exactly `remaining` docked bikes and
preserves the capacity bound. -/
theorem distLoop_ok_facts :
    ∀ remaining stations counter idx stations',
      distLoop stations counter remaining idx = .ok stations' →
      sumDocked stations' = sumDocked stations + remaining ∧
      (capOk stations → capOk stations') := by
  intro remaining
  induction remaining with
  | zero =>
    intro stations counter idx stations' h
    simp only [distLoop] at h
    cases h
    exact ⟨rfl, fun hc => hc⟩
  | succ n ih =>
    intro stations counter idx stations' h
    simp only [distLoop] at h
    split at h
    · exact absurd h (by simp)
    next c hf =>
      split at h
      · exact absurd h (by simp)
      next p hg =>
        obtain ⟨p', hg', hz, hr⟩ := findSlot_ok_facts stations counter stations.length counter c hf
        rw [hg] at hg'
        cases hg'
        have hlt : p.2.docked_bikes.length < p.2.docks := ratio_bound _ _ hz hr
        rw [lease_dock_of_lt _ _ hlt] at h
        dsimp only at h
        obtain ⟨h1, h2⟩ := ih _ _ _ _ h
        constructor
        · have hset := sumDocked_set stations c p
            (p.1, { p.2 with docked_bikes :=
              p.2.docked_bikes ++ [{ Bike.init idx with is_docked := true }] }) hg
          simp at hset
          omega
        · intro hc
          refine h2 (capOk_set _ _ _ hc ?_)
          simp
          omega

/-- C10: the occupancy ratio of `_distribute_bikes` divides by the station's
dock count before any lease, so the moment the round-robin counter reaches a
station with zero docks the whole construction dies with Python's
`ZeroDivisionError` — concretely, a topology whose first station is active
with capacity 0 fails construction for a single bike even though the second
station has ten free docks. -/
theorem C10_zero_docks_division (stations : List (Nat × Station))
    (lastval counter fuel : Nat) (p : Nat × Station)
    (hget : stations.get? counter = some p) (hz : p.2.docks = 0) :
    findSlot stations lastval counter fuel = .error .divisionByZero ∧
    (∀ bike_count idx, 1 ≤ bike_count →
      distLoop stations counter bike_count idx = .error .divisionByZero) ∧
    Orchestrator.build zeroCapRows twoLinks twoHourly 1 oracle1 =
      .error .divisionByZero := by
  have hfs : findSlot stations lastval counter fuel = .error .divisionByZero := by
    rw [findSlot, hget]
    simp [hz]
  refine ⟨hfs, ?_, by decide⟩
  intro bike_count idx hbc
  cases bike_count with
  | zero => omega
  | succ n =>
    simp only [distLoop]
    rw [findSlot, hget]
    simp [hz]

/-- C10 witness: the capacity-0 station at position 0 of `zeroCapSts`. -/
theorem C10_zero_docks_witness :
    zeroCapSts.get? 0 = some (1, Station.init 1 0) ∧
    (Station.init 1 0).docks = 0 ∧
    findSlot zeroCapSts 0 0 zeroCapSts.length = .error .divisionByZero :=
  ⟨by decide, by decide,
   (C10_zero_docks_division zeroCapSts 0 0 zeroCapSts.length
     (1, Station.init 1 0) (by decide) (by decide)).1⟩

/-- The ring successor stays inside the station list. -/
theorem advanceCounter_lt (n c : Nat) (h : c < n) : advanceCounter n c < n := by
  unfold advanceCounter
  split <;> omega

/-- When every station's occupancy ratio is above 9/10 the slot scan fails
with the overprovision error, from any start position. -/
theorem findSlot_all_saturated (stations : List (Nat × Station))
    (hall : ∀ p ∈ stations, p.2.docks ≠ 0 ∧
      ratDiv 9 10 < ratDiv (p.2.docked_bikes.length : ℚ) (p.2.docks : ℚ)) :
    ∀ fuel counter lastval, counter < stations.length →
      findSlot stations lastval counter fuel = .error .overprovisioned := by
  intro fuel
  induction fuel with
  | zero =>
    intro counter lastval hc
    rw [findSlot]
    rcases hg : stations.get? counter with _ | p
    · rw [List.get?_eq_none] at hg
      omega
    · obtain ⟨hz, hr⟩ := hall p (List.get?_mem hg)
      simp [hz, hr]
  | succ n ih =>
    intro counter lastval hc
    rw [findSlot]
    rcases hg : stations.get? counter with _ | p
    · rw [List.get?_eq_none] at hg
      omega
    · obtain ⟨hz, hr⟩ := hall p (List.get?_mem hg)
      by_cases hcl : advanceCounter stations.length counter = lastval
      · simp [hz, hr, hcl]
      · simp [hz, hr, hcl]
        exact ih _ lastval (advanceCounter_lt _ _ hc)

/-- C6 (amended): a topology of two capacity-1 stations cannot accept three
bikes — construction aborts with the overprovision error — and in general,
whenever a full cycle over a (nonempty) station list finds no station whose
occupancy ratio is at or below the 0.9 threshold, the distribution aborts
with that error.  (The claim's rider that this is the *only* fatal error
after input loading is refuted separately: a zero-dock station raises a
division error, a missing arrival station a key error.) -/
theorem C6_overprovision_abort (stations : List (Nat × Station))
    (bike_count : Nat) (hne : stations ≠ [])
    (hall : ∀ p ∈ stations, p.2.docks ≠ 0 ∧
      ratDiv 9 10 < ratDiv (p.2.docked_bikes.length : ℚ) (p.2.docks : ℚ))
    (hbc : 1 ≤ bike_count) :
    distribute_bikes stations bike_count = .error .overprovisioned ∧
    Orchestrator.build capOneRows twoLinks twoHourly 3 oracle1 =
      .error .overprovisioned := by
  refine ⟨?_, by decide⟩
  cases bike_count with
  | zero => omega
  | succ n =>
    unfold distribute_bikes
    simp only [distLoop]
    rw [findSlot_all_saturated stations hall stations.length 0 0
      (List.length_pos.mpr hne)]

/-- C6 witness: a saturated single-station list aborts for one more bike. -/
theorem C6_overprovision_witness :
    saturatedSts ≠ [] ∧
    distribute_bikes saturatedSts 1 = .error .overprovisioned :=
  ⟨by decide,
   (C6_overprovision_abort saturatedSts 1 (by decide) (by decide) (by decide)).1⟩

/-- C6 counterexample to "the only fatal error after input loading": a
topology whose first active station has zero docks makes construction fail
with the division error, which is a different fatal error. -/
theorem C6_only_fatal_counterexample :
    Orchestrator.build zeroCapRows twoLinks twoHourly 1 oracle1 =
      .error .divisionByZero ∧
    DistErr.divisionByZero ≠ DistErr.overprovisioned := by
  decide

/-- Membership after a dict insertion: an old entry or the inserted one. -/
theorem mem_dictInsert (l : List (Nat × Station)) (k : Nat) (v : Station)
    (p : Nat × Station) (h : p ∈ dictInsert l k v) : p ∈ l ∨ p = (k, v) := by
  unfold dictInsert at h
  split at h
  · obtain ⟨q, hq, hqe⟩ := List.mem_map.mp h
    by_cases hqk : q.1 == k
    · rw [if_pos hqk] at hqe
      right
      exact hqe.symm
    · rw [if_neg hqk] at hqe
      left
      exact hqe ▸ hq
  · rcases List.mem_append.mp h with h1 | h1
    · left
      exact h1
    · right
      simpa using h1

/-- Every entry of the instantiated registry starts with an empty dock queue
and owes its key to some crosslink row leaving that station. -/
theorem instantiate_mem_facts (rows : List StationRow)
    (links : List CrosslinkRow) (hourly : List HourlyRow) :
    ∀ p ∈ instantiate_stations rows links hourly,
      p.2.docked_bikes = [] ∧ ∃ c ∈ links, c.start_station_id = p.1 := by
  suffices haux : ∀ (rs : List StationRow) (acc : List (Nat × Station)),
      (∀ p ∈ acc, p.2.docked_bikes = [] ∧ ∃ c ∈ links, c.start_station_id = p.1) →
      ∀ p ∈ rs.foldl (fun stations row =>
        let _id := row.bikeshare_id
        let outgoing := links.filter (fun c => c.start_station_id == _id)
        if (outgoing.map (fun c => c.stop_station_id)).isEmpty then
          stations
        else
          let probs := outgoing.map (fun c => c.arrival_probability)
          let station : Station :=
            { Station.init _id row.docks with
              interlinks_station := outgoing.map (fun c => c.stop_station_id),
              interlinks_probability := probs.map (fun p => ratDiv p (ratSum probs)),
              interlinks_travel_time := outgoing.map (fun c => c.average_trip_duration),
              inter_departure_times :=
                (hourly.filter (fun h => h.station_id == _id)).map
                  (fun h => (h.hour, h.inter_departure_time)) }
          dictInsert stations _id station) acc,
        p.2.docked_bikes = [] ∧ ∃ c ∈ links, c.start_station_id = p.1 by
    intro p hp
    exact haux rows [] (by simp) p hp
  intro rs
  induction rs with
  | nil => intro acc hacc p hp; exact hacc p hp
  | cons row rest ih =>
    intro acc hacc p hp
    rw [List.foldl_cons] at hp
    refine ih _ ?_ p hp
    intro q hq
    dsimp only at hq
    split at hq
    · exact hacc q hq
    next he =>
      rcases mem_dictInsert _ _ _ q hq with h1 | h1
      · exact hacc q h1
      · subst h1
        constructor
        · rfl
        · have hne : links.filter
              (fun c => c.start_station_id == row.bikeshare_id) ≠ [] := by
            intro hnil
            rw [hnil] at he
            simp at he
          rcases List.exists_mem_of_ne_nil _ hne with ⟨c, hc⟩
          have := List.mem_filter.mp hc
          exact ⟨c, this.1, by simpa using this.2⟩

/-- A successful construction yields exactly `bike_count` docked bikes, an
empty in-transit list and stations within their capacity bounds. -/
theorem build_ok_state (rows : List StationRow) (links : List CrosslinkRow)
    (hourly : List HourlyRow) (bike_count : Nat) (rng : Rng) (s0 : SimState)
    (h : Orchestrator.build rows links hourly bike_count rng = .ok s0) :
    sumDocked s0.stations = bike_count ∧ s0.bikes_in_transit = [] ∧
    capOk s0.stations := by
  unfold Orchestrator.build at h
  dsimp only at h
  split at h
  · exact absurd h (by simp)
  next sts' hd =>
    cases h
    have hmem := instantiate_mem_facts rows
      (links.filter (fun c =>
        (rows.map (fun r => r.bikeshare_id)).contains c.stop_station_id)) hourly
    obtain ⟨h1, h2⟩ := distLoop_ok_facts bike_count _ 0 0 sts' hd
    have hz : sumDocked (instantiate_stations rows
        (links.filter (fun c =>
          (rows.map (fun r => r.bikeshare_id)).contains c.stop_station_id))
        hourly) = 0 := by
      apply List.sum_eq_zero
      intro x hx
      obtain ⟨q, hq, hqe⟩ := List.mem_map.mp hx
      rw [← hqe, (hmem q hq).1]
      rfl
    refine ⟨by rw [h1, hz, Nat.zero_add], rfl, h2 ?_⟩
    intro q hq
    rw [(hmem q hq).1]
    exact Nat.zero_le _

/-- C5 (amended): a station with zero outgoing transitions is excluded from
the station registry entirely — it can neither emit departures nor receive
arrivals — and a bike whose drawn destination is such a station makes the
arrival phase fail with the source's missing-station `KeyError`, as the
concrete two-station run shows. -/
theorem C5_inactive_station_excluded (rows : List StationRow)
    (links : List CrosslinkRow) (hourly : List HourlyRow) (id : Nat)
    (hnone : ∀ c ∈ links, c.start_station_id ≠ id) :
    stationsGet (instantiate_stations rows links hourly) id = none ∧
    (Orchestrator.build twoRows c5Links twoHourly 1 oracle1 = .ok c5Init ∧
     stationsGet c5Init.stations 2 = none ∧
     run_simulation 10 1 c5Init = .error (.keyError 2)) := by
  refine ⟨?_, by decide, by decide, by decide⟩
  rw [stationsGet, Option.map_eq_none', List.find?_eq_none]
  intro p hp
  obtain ⟨-, c, hc, hcs⟩ := instantiate_mem_facts rows links hourly p hp
  simp only [beq_iff_eq]
  intro hpid
  exact hnone c hc (hcs.trans hpid)

/-- C5 witness: station 2 of the concrete scenario has no outgoing links and
is absent from the registry built from the raw inputs. -/
theorem C5_inactive_witness :
    (∀ c ∈ c5Links, c.start_station_id ≠ 2) ∧
    stationsGet (instantiate_stations twoRows c5Links twoHourly) 2 = none :=
  ⟨by decide,
   (C5_inactive_station_excluded twoRows c5Links twoHourly 2 (by decide)).1⟩

/-- C5 counterexample: the claim promises the arrival-phase lookup at a
zero-outgoing destination is always defined, but the concrete run reaches
the arrival with destination 2 and dies with the missing-station error. -/
theorem C5_arrival_defined_counterexample :
    Orchestrator.build twoRows c5Links twoHourly 1 oracle1 = .ok c5Init ∧
    (∀ c ∈ c5Links, c.start_station_id ≠ 2) ∧
    run_simulation 10 1 c5Init = .error (.keyError 2) := by
  decide

/-- The call `should_bike_depart` only touches the two departure counters. -/
theorem should_bike_depart_station (st : Station) (hour : String) (rng : Rng) :
    ((st.should_bike_depart hour rng).2.1).docked_bikes = st.docked_bikes ∧
    ((st.should_bike_depart hour rng).2.1).docks = st.docks := by
  unfold Station.should_bike_depart
  split <;> simp

/-- The call `release_dock` keeps the dock count and pops at most one bike
(`optLen` counts the released bike). -/
theorem release_dock_facts (st : Station) (dest : Nat) (tt : ℚ) :
    ((st.release_dock dest tt).2).docks = st.docks ∧
    ((st.release_dock dest tt).2).docked_bikes.length +
      optLen (st.release_dock dest tt).1 = st.docked_bikes.length := by
  rcases hd : st.docked_bikes with _ | ⟨b, rest⟩ <;>
    simp [Station.release_dock, hd, optLen]

/-- A successful `lease_dock` appends exactly one bike, keeps the dock count
and implies there was a free dock. -/
theorem lease_dock_true_facts (st : Station) (b : Bike)
    (h : (st.lease_dock b).1 = true) :
    ((st.lease_dock b).2.1).docked_bikes.length = st.docked_bikes.length + 1 ∧
    ((st.lease_dock b).2.1).docks = st.docks ∧
    st.docked_bikes.length < st.docks := by
  by_cases hlt : st.docked_bikes.length < st.docks
  · rw [lease_dock_of_lt st b hlt]
    exact ⟨by simp, rfl, hlt⟩
  · rw [lease_dock_of_ge st b hlt] at h
    simp at h

/-- One station's departure step: dock count preserved, and the docked
count drops exactly by the released bike. -/
theorem stationTick_facts (tick : Nat) (hour timestamp : String) (st : Station)
    (rng : Rng) :
    ((stationTick tick hour timestamp st rng).1).docks = st.docks ∧
    ((stationTick tick hour timestamp st rng).1).docked_bikes.length +
      optLen (stationTick tick hour timestamp st rng).2.2.1 =
      st.docked_bikes.length := by
  obtain ⟨hdb, hdk⟩ := should_bike_depart_station st hour rng
  unfold stationTick
  by_cases hd : (st.should_bike_depart hour rng).1 <;>
    simp only [hd, if_true, if_false, Bool.false_eq_true]
  · obtain ⟨hrk, hrl⟩ := release_dock_facts (st.should_bike_depart hour rng).2.1
      ((st.should_bike_depart hour rng).2.1.get_destination_station
        (st.should_bike_depart hour rng).2.2).1.1
      ((st.should_bike_depart hour rng).2.1.get_destination_station
        (st.should_bike_depart hour rng).2.2).1.2
    rcases hrel : (st.should_bike_depart hour rng).2.1.release_dock
        ((st.should_bike_depart hour rng).2.1.get_destination_station
          (st.should_bike_depart hour rng).2.2).1.1
        ((st.should_bike_depart hour rng).2.1.get_destination_station
          (st.should_bike_depart hour rng).2.2).1.2 with ⟨ob, st2⟩
    rw [hrel] at hrl hrk
    rcases ob with _ | b <;> simp_all [optLen]
  · simp [hdb, hdk, optLen]

/-- The departure phase preserves total bike count (docked plus transit) and
the capacity bound, station by station. -/
theorem departurePhase_facts (tick : Nat) (hour timestamp : String) :
    ∀ (stations : List (Nat × Station)) (rng : Rng) (transit : List Bike)
      (evs : List Event) (stats : List StatRow),
      sumDocked (departurePhase tick hour timestamp stations rng transit evs stats).1 +
        (departurePhase tick hour timestamp stations rng transit evs stats).2.2.1.length =
        sumDocked stations + transit.length ∧
      (capOk stations →
        capOk (departurePhase tick hour timestamp stations rng transit evs stats).1) := by
  intro stations
  induction stations with
  | nil =>
    intro rng transit evs stats
    exact ⟨by simp [departurePhase, sumDocked], fun _ => by simp [departurePhase, capOk]⟩
  | cons p rest ih =>
    intro rng transit evs stats
    obtain ⟨hdk, hlen⟩ := stationTick_facts tick hour timestamp p.2 rng
    simp only [departurePhase]
    rcases hob : (stationTick tick hour timestamp p.2 rng).2.2.1 with _ | b <;>
      rw [hob] at hlen <;>
      simp only [hob, optLen] at hlen ⊢
    · obtain ⟨ih1, ih2⟩ := ih (stationTick tick hour timestamp p.2 rng).2.1 transit
        (evs ++ (stationTick tick hour timestamp p.2 rng).2.2.2)
        (stats ++ [mkStatRow tick timestamp (stationTick tick hour timestamp p.2 rng).1])
      constructor
      · simp only [sumDocked, List.map_cons, List.sum_cons] at ih1 ⊢
        omega
      · intro hc
        rw [capOk, List.forall_mem_cons] at hc ⊢
        refine ⟨?_, ih2 hc.2⟩
        dsimp only
        omega
    · obtain ⟨ih1, ih2⟩ := ih (stationTick tick hour timestamp p.2 rng).2.1 (transit ++ [b])
        (evs ++ (stationTick tick hour timestamp p.2 rng).2.2.2)
        (stats ++ [mkStatRow tick timestamp (stationTick tick hour timestamp p.2 rng).1])
      constructor
      · simp only [sumDocked, List.map_cons, List.sum_cons, List.length_append,
          List.length_cons, List.length_nil] at ih1 ⊢
        omega
      · intro hc
        rw [capOk, List.forall_mem_cons] at hc ⊢
        refine ⟨?_, ih2 hc.2⟩
        dsimp only
        omega

/-- First-match write-back: replacing the looked-up station changes
`sumDocked` by the docked-count difference. -/
theorem sumDocked_stationsSet (sts : List (Nat × Station)) :
    ∀ k st v, stationsGet sts k = some st →
      sumDocked (stationsSet sts k v) + st.docked_bikes.length =
        sumDocked sts + v.docked_bikes.length := by
  induction sts with
  | nil => intro k st v h; simp [stationsGet] at h
  | cons p rest ih =>
    intro k st v h
    by_cases hk : p.1 = k
    · simp only [stationsGet, List.find?_cons, hk, beq_self_eq_true,
        Option.map_some'] at h
      cases h
      simp only [stationsSet, hk, if_true, sumDocked, List.map_cons, List.sum_cons]
      omega
    · have hbeq : (p.1 == k) = false := beq_eq_false_iff_ne.mpr hk
      simp only [stationsGet, List.find?_cons, hbeq] at h
      have h' : stationsGet rest k = some st := h
      have := ih k st v h'
      simp only [stationsSet, hk, if_false, sumDocked, List.map_cons, List.sum_cons]
      simp only [sumDocked] at this
      omega

/-- Membership after a first-match write-back. -/
theorem mem_stationsSet (sts : List (Nat × Station)) :
    ∀ k v p, p ∈ stationsSet sts k v → p ∈ sts ∨ p = (k, v) := by
  induction sts with
  | nil => intro k v p h; simp [stationsSet] at h
  | cons q rest ih =>
    intro k v p h
    simp only [stationsSet] at h
    split at h
    · rcases List.mem_cons.mp h with h1 | h1
      · right; exact h1
      · left; exact List.mem_cons_of_mem _ h1
    · rcases List.mem_cons.mp h with h1 | h1
      · left; exact h1 ▸ List.mem_cons_self _ _
      · rcases ih k v p h1 with h2 | h2
        · left; exact List.mem_cons_of_mem _ h2
        · right; exact h2

/-- The bound `capOk` survives a first-match write-back within bounds. -/
theorem capOk_stationsSet (sts : List (Nat × Station)) (k : Nat) (v : Station)
    (h : capOk sts) (hv : v.docked_bikes.length ≤ v.docks) :
    capOk (stationsSet sts k v) := by
  intro p hp
  rcases mem_stationsSet sts k v p hp with h1 | h1
  · exact h p h1
  · subst h1; exact hv

/-- The arrival phase preserves total bike count (docked plus in-transit,
counting both the processed prefix `done` and the pending suffix `todo`) and
the capacity bound. -/
theorem arrivalGo_ok_facts (tick : Nat) :
    ∀ (todo : List Bike) (sts : List (Nat × Station)) (done : List Bike)
      (evs : List Event) (out : List (Nat × Station) × List Bike × List Event),
      arrivalGo tick sts done todo evs = .ok out →
      sumDocked out.1 + out.2.1.length =
        sumDocked sts + done.length + todo.length ∧
      (capOk sts → capOk out.1) := by
  suffices H : ∀ (n : Nat) (todo : List Bike) sts done evs out,
      todo.length ≤ n → arrivalGo tick sts done todo evs = .ok out →
      sumDocked out.1 + out.2.1.length =
        sumDocked sts + done.length + todo.length ∧
      (capOk sts → capOk out.1) by
    intro todo sts done evs out h
    exact H todo.length todo sts done evs out le_rfl h
  intro n
  induction n with
  | zero =>
    intro todo sts done evs out hlen h
    have : todo = [] := List.eq_nil_of_length_eq_zero (Nat.le_zero.mp hlen)
    subst this
    simp only [arrivalGo] at h
    cases h
    simp
  | succ n ih =>
    intro todo sts done evs out hlen h
    cases todo with
    | nil =>
      simp only [arrivalGo] at h
      cases h
      simp
    | cons bike rest =>
      simp only [arrivalGo] at h
      split at h
      · -- the bike has arrived
        split at h
        · exact absurd h (by simp)
        next st hget =>
          rcases hlease : (st.lease_dock
              { bike with remaining_transit_time :=
                  bike.remaining_transit_time - 60 }).1 with _ | _
          · rw [if_neg (by simp [hlease])] at h
            obtain ⟨h1, h2⟩ := ih rest sts (done ++ [{ bike with
              remaining_transit_time := bike.remaining_transit_time - 60 }]) _ out
              (by simpa using Nat.le_of_succ_le_succ hlen) h
            simp only [List.length_append, List.length_cons, List.length_nil] at h1
            exact ⟨by simp only [List.length_cons]; omega, h2⟩
          · rw [if_pos (by simp [hlease])] at h
            obtain ⟨hl1, hl2, hl3⟩ := lease_dock_true_facts _ _ hlease
            have hsum := sumDocked_stationsSet sts bike.next_arrival_to st
              ((st.lease_dock { bike with remaining_transit_time :=
                  bike.remaining_transit_time - 60 }).2.1) hget
            have hcap : ∀ hc : capOk sts, capOk (stationsSet sts
                bike.next_arrival_to
                ((st.lease_dock { bike with remaining_transit_time :=
                    bike.remaining_transit_time - 60 }).2.1)) := by
              intro hc
              refine capOk_stationsSet _ _ _ hc ?_
              omega
            cases rest with
            | nil =>
              cases h
              constructor
              · simp only [List.length_cons, List.length_nil]
                omega
              · exact fun hc => hcap hc
            | cons skipped rest' =>
              obtain ⟨h1, h2⟩ := ih rest' _ (done ++ [skipped]) _ out
                (by simp only [List.length_cons] at hlen ⊢; omega) h
              simp only [List.length_append, List.length_cons, List.length_nil] at h1
              refine ⟨by simp only [List.length_cons]; omega, fun hc => h2 (hcap hc)⟩
      · -- still in transit
        obtain ⟨h1, h2⟩ := ih rest sts (done ++ [{ bike with
            remaining_transit_time := bike.remaining_transit_time - 60 }]) _ out
          (by simpa using Nat.le_of_succ_le_succ hlen) h
        simp only [List.length_append, List.length_cons, List.length_nil] at h1
        exact ⟨by simp only [List.length_cons]; omega, h2⟩

/-- One tick preserves the fleet count and the capacity bound. -/
theorem runTick_ok_facts (start_hour tick : Nat) (s s' : SimState)
    (h : runTick start_hour tick s = .ok s') :
    fleetCount s' = fleetCount s ∧ (capOk s.stations → capOk s'.stations) := by
  unfold runTick at h
  dsimp only at h
  obtain ⟨hdep1, hdep2⟩ := departurePhase_facts tick
    (pad2 (start_hour + tick / 60))
    (pad2 (start_hour + tick / 60) ++ ":" ++ pad2 (tick % 60))
    s.stations s.rng s.bikes_in_transit s.events s.simulation_statistics
  split at h
  · exact absurd h (by simp)
  next arr harr =>
    cases h
    obtain ⟨ha1, ha2⟩ := arrivalGo_ok_facts tick _ _ _ _ arr harr
    constructor
    · simp only [fleetCount]
      simp only [List.length_nil] at ha1
      omega
    · intro hc
      exact ha2 (hdep2 hc)

/-- Any number of ticks preserves the fleet count and the capacity bound. -/
theorem runTicks_ok_facts (start_hour : Nat) :
    ∀ (remaining tick : Nat) (s s' : SimState),
      runTicks start_hour tick remaining s = .ok s' →
      fleetCount s' = fleetCount s ∧ (capOk s.stations → capOk s'.stations) := by
  intro remaining
  induction remaining with
  | zero =>
    intro tick s s' h
    simp only [runTicks] at h
    cases h
    exact ⟨rfl, id⟩
  | succ n ih =>
    intro tick s s' h
    simp only [runTicks] at h
    split at h
    · exact absurd h (by simp)
    next s1 h1 =>
      obtain ⟨f1, c1⟩ := runTick_ok_facts start_hour tick s s1 h1
      obtain ⟨f2, c2⟩ := ih (tick + 1) s1 s' h
      exact ⟨f2.trans f1, fun hc => c2 (c1 hc)⟩

/-- C1: fleet conservation.  For every successfully constructed orchestrator
and every number of ticks run from it, the docked bikes summed over all
stations plus the in-transit bikes equal the constructed `bike_count`; since
`t` is arbitrary (and `runTicks` composes tick by tick), this is the state
after every tick of any run — no bike is created or destroyed after the
initial distribution. -/
theorem C1_fleet_conservation (rows : List StationRow)
    (links : List CrosslinkRow) (hourly : List HourlyRow) (bike_count : Nat)
    (rng : Rng) (start_hour tick t : Nat) (s0 sF : SimState)
    (hbuild : Orchestrator.build rows links hourly bike_count rng = .ok s0)
    (hrun : runTicks start_hour tick t s0 = .ok sF) :
    fleetCount sF = bike_count := by
  obtain ⟨h1, h2, -⟩ := build_ok_state rows links hourly bike_count rng s0 hbuild
  obtain ⟨hf, -⟩ := runTicks_ok_facts start_hour t tick s0 sF hrun
  rw [hf, fleetCount, h1, h2]
  simp

/-- C1 witness: the one-station, one-bike, one-tick run conserves its single
bike. -/
theorem C1_fleet_witness :
    Orchestrator.build w1Rows w1Links w1Hourly 1 w1Oracle = .ok w1Init ∧
    runTicks 0 0 1 w1Init = .ok w1Final ∧
    fleetCount w1Final = 1 :=
  ⟨by decide, by decide,
   C1_fleet_conservation w1Rows w1Links w1Hourly 1 w1Oracle 0 0 1 w1Init
     w1Final (by decide) (by decide)⟩

/-- C2: capacity invariant.  Immediately after construction and after every
tick of any run, every station holds at most `docks` bikes; moreover the
only operation that ever adds a docked bike, `lease_dock`, can never push a
station beyond its capacity (so the bound also holds at every intermediate
point of construction and of a tick). -/
theorem C2_capacity_invariant (rows : List StationRow)
    (links : List CrosslinkRow) (hourly : List HourlyRow) (bike_count : Nat)
    (rng : Rng) (start_hour tick t : Nat) (s0 sF : SimState)
    (hbuild : Orchestrator.build rows links hourly bike_count rng = .ok s0)
    (hrun : runTicks start_hour tick t s0 = .ok sF) :
    capOk s0.stations ∧ capOk sF.stations ∧
    (∀ (st : Station) (b : Bike), st.docked_bikes.length ≤ st.docks →
      ((st.lease_dock b).2.1).docked_bikes.length ≤ ((st.lease_dock b).2.1).docks) := by
  obtain ⟨-, -, h3⟩ := build_ok_state rows links hourly bike_count rng s0 hbuild
  obtain ⟨-, hcap⟩ := runTicks_ok_facts start_hour t tick s0 sF hrun
  refine ⟨h3, hcap h3, ?_⟩
  intro st b hb
  by_cases hlt : st.docked_bikes.length < st.docks
  · rw [lease_dock_of_lt st b hlt]
    simp
    omega
  · rw [lease_dock_of_ge st b hlt]
    exact hb

/-- C2 witness: the one-station run keeps its station within capacity. -/
theorem C2_capacity_witness :
    Orchestrator.build w1Rows w1Links w1Hourly 1 w1Oracle = .ok w1Init ∧
    runTicks 0 0 1 w1Init = .ok w1Final ∧
    (capOk w1Init.stations ∧ capOk w1Final.stations ∧
     (∀ (st : Station) (b : Bike), st.docked_bikes.length ≤ st.docks →
       ((st.lease_dock b).2.1).docked_bikes.length ≤ ((st.lease_dock b).2.1).docks)) :=
  ⟨by decide, by decide,
   C2_capacity_invariant w1Rows w1Links w1Hourly 1 w1Oracle 0 0 1 w1Init
     w1Final (by decide) (by decide)⟩

/-- C3 counterexample: in the end-to-end scenario (A capacity 2 with one
bike, single destination B at probability 1, travel time 2 ticks = 120
seconds, 5 ticks from `start_hour = 10`, departure fired at tick 0), the
construction succeeds and the run's only `ArrivalLeased` event is at tick 1 —
there is no `ArrivalLeased` event at tick 2, because the 120-second transit
is decremented by 60 during the arrival phases of ticks 0 and 1 and the
lease happens the moment it reaches 0, inside tick 1. -/
theorem C3_arrival_tick_counterexample :
    Orchestrator.build twoRows twoLinks twoHourly 1 oracle1 = .ok c3Init ∧
    c3Final.isOk = true ∧
    Event.arrivalLeased 1 0 2 ∈ c3Events ∧
    c3Events.all (fun e => match e with
      | .arrivalLeased t _ _ => decide (t = 1)
      | _ => true) = true := by
  decide

/-- C3 (amended): the end-to-end scenario produces a `DepartureLeased` event
at tick 0, the bike is in transit after tick 0 and docks during tick 1's
arrival phase (`ArrivalLeased` at tick 1, one tick earlier than the claim
stated, and none at tick 2), station A's StatRows show `used_docks = 0` from
tick 0 onward, and station B's show `used_docks = 0` at ticks 0-1 and
`used_docks = 1` from tick 2 onward (the tick-1 arrival lands after tick 1's
statistics row is written). -/
theorem C3_end_to_end_amended :
    Orchestrator.build twoRows twoLinks twoHourly 1 oracle1 = .ok c3Init ∧
    Event.departureLeased 0 ("10:00") 0 1 2 ∈ c3Events ∧
    c3After1.bikes_in_transit.map Bike.bike_id = [0] ∧
    Event.arrivalLeased 1 0 2 ∈ c3Events ∧
    Event.arrivalLeased 2 0 2 ∉ c3Events ∧
    c3Stats.length = 10 ∧
    c3Stats.all (fun r => (r.station_id != 1) || (r.used_docks == 0)) = true ∧
    c3Stats.all (fun r => (r.station_id != 2) ||
      (if 2 ≤ r.tick_number then r.used_docks == 1 else r.used_docks == 0)) =
      true := by
  decide

end Cogo
